import Mathlib

/-!
Verification of the `no-window-prefix` lint rule (src/rules/no_window_prefix.rs).

The rule scans member-access expressions of the shape `window.<prop>` (or the
computed equivalents) and reports a diagnostic when `window` resolves to the
global scope and `<prop>` is in a fixed deny-list of Web-API names.

The embedding below follows the Rust source: the deny-list
`PROPERTY_DENY_LIST`, the symbol extractor `extract_symbol`, and the traversal
callback `member_expr` of `NoWindowPrefixHandler`.  The surrounding framework
(parser, scope-table construction, visitor dispatch) is external to the rule;
it is modelled by an expression AST, a scope-query function passed as a
parameter, and a traversal that invokes the callback once per member
expression in document order, telling it whether its parent is itself a
member expression.
-/

namespace NoWindowPrefixRule

/-- Fixed rule code (constant `CODE` in the source). -/
def CODE : String := "no-window-prefix"

/-- Fixed diagnostic message (constant `MESSAGE` in the source). -/
def MESSAGE : String := "For compatibility between the Window context and the Web Workers, calling Web APIs via `window` is disallowed"

/-- Fixed diagnostic hint (constant `HINT` in the source). -/
def HINT : String := "Instead, call this API via `self`, `globalThis`, or no extra prefix"

/-- Tags of the rule descriptor (`fn tags` in the source). -/
def tags : List String := ["recommended"]

/-- An identifier binding key, as produced by `Ident::to_id()`: the symbol text
together with a syntax context distinguishing different bindings of the same
name. -/
abbrev Id := String × Nat

/-- Literals, as far as the rule inspects them (`Lit::Str` versus anything
else). -/
inductive Lit where
  | str (value : String) : Lit
  | otherLit : Lit
  deriving Repr, DecidableEq

mutual

/-- Expressions, covering the forms the rule distinguishes: identifiers (with
their binding key), literals, template literals (interpolated sub-expressions
plus raw quasi segments), member expressions, call expressions, and an opaque
catch-all for every other expression form. -/
inductive Expr where
  | ident (sym : String) (ctxt : Nat) : Expr
  | lit (l : Lit) : Expr
  | tpl (exprs : List Expr) (quasis : List String) : Expr
  | member (m : MemberExpr) : Expr
  | call (callee : Expr) (args : List Expr) : Expr
  | otherExpr : Expr

/-- A member-access expression: object expression, property, and the source
range (`lo`, `hi`) returned by `.range()`. -/
inductive MemberExpr where
  | mk (obj : Expr) (prop : MemberProp) (lo : Nat) (hi : Nat) : MemberExpr

/-- The property part of a member access (`MemberProp` in the source):
a plain identifier, a private name, or a computed expression. -/
inductive MemberProp where
  | ident (sym : String) : MemberProp
  | privateName (sym : String) : MemberProp
  | computed (e : Expr) : MemberProp

end

/-- Object sub-expression of a member access. -/
def MemberExpr.obj : MemberExpr → Expr
  | .mk o _ _ _ => o

/-- Property part of a member access. -/
def MemberExpr.prop : MemberExpr → MemberProp
  | .mk _ p _ _ => p

/-- Start of the source range of a member access. -/
def MemberExpr.lo : MemberExpr → Nat
  | .mk _ _ l _ => l

/-- End of the source range of a member access. -/
def MemberExpr.hi : MemberExpr → Nat
  | .mk _ _ _ h => h

/-- A reported finding: source range, rule code, message, and hint, exactly
the four arguments of `ctx.add_diagnostic_with_hint`. -/
structure Diagnostic where
  range : Nat × Nat
  code : String
  message : String
  hint : String
  deriving Repr, DecidableEq

/-- The analysis context, as far as the rule touches it: the accumulated
diagnostics. -/
structure Context where
  diagnostics : List Diagnostic
  deriving Repr, DecidableEq

/-- Appends a diagnostic to the context (`Context::add_diagnostic_with_hint`). -/
def Context.add_diagnostic_with_hint (ctx : Context) (range : Nat × Nat)
    (code : String) (message : String) (hint : String) : Context :=
  { ctx with diagnostics := ctx.diagnostics ++ [⟨range, code, message, hint⟩] }

/-- The deny-list of property names (static `PROPERTY_DENY_LIST` in the
source), transcribed entry for entry. -/
def PROPERTY_DENY_LIST : List String := [
  "AbortController",
  "AbortSignal",
  "Blob",
  "BroadcastChannel",
  "ByteLengthQueuingStrategy",
  "Cache",
  "CacheStorage",
  "CanvasGradient",
  "CanvasPattern",
  "CloseEvent",
  "CountQueuingStrategy",
  "Crypto",
  "CryptoKey",
  "CustomEvent",
  "DOMException",
  "DOMMatrix",
  "DOMMatrixReadOnly",
  "DOMPoint",
  "DOMPointReadOnly",
  "DOMQuad",
  "DOMRect",
  "DOMRectReadOnly",
  "DOMStringList",
  "ErrorEvent",
  "Event",
  "EventSource",
  "EventTarget",
  "File",
  "FileList",
  "FileReader",
  "FontFace",
  "FontFaceSet",
  "FontFaceSetLoadEvent",
  "FormData",
  "Headers",
  "IDBCursor",
  "IDBCursorWithValue",
  "IDBDatabase",
  "IDBFactory",
  "IDBIndex",
  "IDBKeyRange",
  "IDBObjectStore",
  "IDBOpenDBRequest",
  "IDBRequest",
  "IDBTransaction",
  "IDBVersionChangeEvent",
  "ImageBitmap",
  "ImageBitmapRenderingContext",
  "ImageData",
  "MediaCapabilities",
  "MessageChannel",
  "MessageEvent",
  "MessagePort",
  "NetworkInformation",
  "Notification",
  "Path2D",
  "Performance",
  "PerformanceEntry",
  "PerformanceMark",
  "PerformanceMeasure",
  "PerformanceObserver",
  "PerformanceObserverEntryList",
  "PerformanceResourceTiming",
  "PerformanceServerTiming",
  "PermissionStatus",
  "Permissions",
  "ProgressEvent",
  "PromiseRejectionEvent",
  "PushManager",
  "PushSubscription",
  "PushSubscriptionOptions",
  "ReadableStream",
  "ReadableStreamDefaultController",
  "ReadableStreamDefaultReader",
  "Request",
  "Response",
  "SecurityPolicyViolationEvent",
  "ServiceWorker",
  "ServiceWorkerContainer",
  "ServiceWorkerRegistration",
  "StorageManager",
  "SubtleCrypto",
  "TextDecoder",
  "TextDecoderStream",
  "TextEncoder",
  "TextEncoderStream",
  "TextMetrics",
  "TransformStream",
  "TransformStreamDefaultController",
  "URL",
  "URLSearchParams",
  "WebGL2RenderingContext",
  "WebGLActiveInfo",
  "WebGLBuffer",
  "WebGLContextEvent",
  "WebGLFramebuffer",
  "WebGLProgram",
  "WebGLQuery",
  "WebGLRenderbuffer",
  "WebGLRenderingContext",
  "WebGLSampler",
  "WebGLShader",
  "WebGLShaderPrecisionFormat",
  "WebGLSync",
  "WebGLTexture",
  "WebGLTransformFeedback",
  "WebGLUniformLocation",
  "WebGLVertexArrayObject",
  "WebSocket",
  "Worker",
  "WritableStream",
  "WritableStreamDefaultController",
  "WritableStreamDefaultWriter",
  "XMLHttpRequest",
  "XMLHttpRequestEventTarget",
  "XMLHttpRequestUpload",
  "console",
  "WebAssembly",
  "name",
  "navigator",
  "self",
  "close",
  "postMessage",
  "dispatchEvent",
  "cancelAnimationFrame",
  "requestAnimationFrame",
  "onerror",
  "onlanguagechange",
  "onmessage",
  "onmessageerror",
  "onoffline",
  "ononline",
  "onrejectionhandled",
  "onunhandledrejection",
  "caches",
  "crossOriginIsolated",
  "crypto",
  "indexedDB",
  "isSecureContext",
  "origin",
  "performance",
  "atob",
  "btoa",
  "clearInterval",
  "clearTimeout",
  "createImageBitmap",
  "fetch",
  "queueMicrotask",
  "setInterval",
  "setTimeout",
  "addEventListener",
  "removeEventListener",
  "Deno"
]

/-- Membership test of the deny-list (`PROPERTY_DENY_LIST.contains` in the
source): an exact, case-sensitive string lookup. -/
def is_denied (name : String) : Bool :=
  PROPERTY_DENY_LIST.contains name

/-- Extracts a symbol from the given member expression if the symbol is
statically determined, otherwise returns `none` (function `extract_symbol` in
the source). -/
def extract_symbol (expr : MemberExpr) : Option String :=
  match expr.prop with
  | .ident ident => some ident
  | .privateName nm => some nm
  | .computed prop =>
    match prop with
    | .lit (.str s) => some s
    | .ident _ _ => none
    | .tpl exprs quasis =>
      if exprs.isEmpty && quasis.length == 1 then quasis.head? else none
    | _ => none

/-- The traversal callback `NoWindowPrefixHandler::member_expr`.  It receives
the scope query `isGlobal` (the external `ctx.scope().is_global` capability),
whether the parent node of this member expression is itself a member
expression, the member expression, and the analysis context; it returns the
(possibly extended) context. -/
def member_expr (isGlobal : Id → Bool) (parentIsMemberExpr : Bool)
    (m : MemberExpr) (ctx : Context) : Context :=
  if parentIsMemberExpr then ctx
  else
    match m.obj with
    | .ident sym ctxt =>
      if sym == "window" then
        if isGlobal (sym, ctxt) then
          match extract_symbol m with
          | some prop_symbol =>
            if is_denied prop_symbol then
              ctx.add_diagnostic_with_hint (m.lo, m.hi) CODE MESSAGE HINT
            else ctx
          | none => ctx
        else ctx
      else ctx
    | _ => ctx

mutual

/-- The external traversal framework, walking an expression in document order
and invoking the `member_expr` callback once per member expression.  The flag
`parentIsMemberExpr` records whether the node currently visited is the object
of an enclosing member expression (the `member_expr.parent().is::<MemberExpr>()`
test of the source): it is set exactly when descending into the object of a
member expression. -/
def traverseExpr (isGlobal : Id → Bool) (parentIsMemberExpr : Bool)
    (e : Expr) (ctx : Context) : Context :=
  match e with
  | .ident _ _ => ctx
  | .lit _ => ctx
  | .tpl exprs _ => traverseList isGlobal exprs ctx
  | .member m =>
    traverseMember isGlobal m (member_expr isGlobal parentIsMemberExpr m ctx)
  | .call callee args =>
    traverseList isGlobal args (traverseExpr isGlobal false callee ctx)
  | .otherExpr => ctx

/-- Walks the children of a member expression: the object (whose parent is
this member expression) and the property. -/
def traverseMember (isGlobal : Id → Bool) (m : MemberExpr) (ctx : Context) :
    Context :=
  match m with
  | .mk obj prop _ _ =>
    traverseProp isGlobal prop (traverseExpr isGlobal true obj ctx)

/-- Walks the property part of a member expression; only a computed property
has an expression child, and its parent node is the computed-property wrapper,
not the member expression. -/
def traverseProp (isGlobal : Id → Bool) (p : MemberProp) (ctx : Context) :
    Context :=
  match p with
  | .ident _ => ctx
  | .privateName _ => ctx
  | .computed e => traverseExpr isGlobal false e ctx

/-- Walks a list of sibling expressions left to right; none of them is the
object of a member expression. -/
def traverseList (isGlobal : Id → Bool) (es : List Expr) (ctx : Context) :
    Context :=
  match es with
  | [] => ctx
  | e :: rest => traverseList isGlobal rest (traverseExpr isGlobal false e ctx)

end

/-- A program, as far as the rule sees it: the expressions of its statements in
document order.  (Statement syntax itself carries no member expressions.) -/
abbrev Program := List Expr

/-- Runs the rule over a whole program with the given scope query, starting
from an empty context, and returns the emitted diagnostics
(`lint_program_with_ast_view` followed by reading the diagnostic sink). -/
def lint_program (isGlobal : Id → Bool) (p : Program) : List Diagnostic :=
  (traverseList isGlobal p ⟨[]⟩).diagnostics

end NoWindowPrefixRule

namespace NoWindowPrefixRule

/-- A name on the deny-list is reported as denied by the membership test. -/
theorem contains_of_mem {p : String} (hp : p ∈ PROPERTY_DENY_LIST) :
    is_denied p = true :=
  List.elem_iff.mpr hp

/-- C1: for every property name `p` in the deny-list, each of the three access
forms `window.p`, bracket access with the string literal `"p"`, and bracket
access with the single-segment template literal, with `window` resolving to
the global scope and the access not the object of an enclosing member
expression, emits exactly one diagnostic, anchored at the full member
expression's source range, carrying the fixed rule code, message, and hint. -/
theorem deny_list_three_forms (p : String) (hp : p ∈ PROPERTY_DENY_LIST)
    (g : Id → Bool) (hg : g ("window", 0) = true) (lo hi : Nat) :
    lint_program g [.member (.mk (.ident "window" 0) (.ident p) lo hi)]
      = [⟨(lo, hi), CODE, MESSAGE, HINT⟩]
    ∧ lint_program g
        [.member (.mk (.ident "window" 0) (.computed (.lit (.str p))) lo hi)]
      = [⟨(lo, hi), CODE, MESSAGE, HINT⟩]
    ∧ lint_program g
        [.member (.mk (.ident "window" 0) (.computed (.tpl [] [p])) lo hi)]
      = [⟨(lo, hi), CODE, MESSAGE, HINT⟩] := by
  have hc := contains_of_mem hp
  refine ⟨?_, ?_, ?_⟩ <;>
    simp [lint_program, traverseList, traverseExpr, traverseMember, traverseProp,
      member_expr, extract_symbol, MemberExpr.obj, MemberExpr.prop,
      MemberExpr.lo, MemberExpr.hi, hg, hc, Context.add_diagnostic_with_hint]

/-- Witness for C1 at the concrete name "fetch" and range (0, 12). -/
theorem deny_list_three_forms_witness :
    "fetch" ∈ PROPERTY_DENY_LIST ∧
    lint_program (fun _ => true)
      [.member (.mk (.ident "window" 0) (.ident "fetch") 0 12)]
      = [⟨(0, 12), CODE, MESSAGE, HINT⟩] :=
  ⟨by decide,
    (deny_list_three_forms "fetch" (by decide) (fun _ => true) rfl 0 12).1⟩

/-- C2: a member access whose object is the identifier `window` bound
non-globally emits nothing, for any property and parent shape; on the program
`const window = 42; window.fetch();` (the access carries the local binding
key) no diagnostic is produced; and on a program whose nested scope shadows
`window` (binding key 1) followed by a top-level `window.fetch();` (binding
key 0, global), exactly one diagnostic is produced, anchored at the
top-level access's range. -/
theorem shadowed_window_skipped (g : Id → Bool) :
    (∀ (pim : Bool) (prop : MemberProp) (lo hi c : Nat) (ctx : Context),
      g ("window", c) = false →
      member_expr g pim (.mk (.ident "window" c) prop lo hi) ctx = ctx)
    ∧ (∀ (lo hi : Nat), g ("window", 1) = false →
      lint_program g
        [.call (.member (.mk (.ident "window" 1) (.ident "fetch") lo hi)) []]
        = [])
    ∧ (∀ (lo hi : Nat), g ("window", 0) = true → g ("window", 1) = false →
      lint_program g
        [.lit .otherLit, .ident "window" 1,
         .call (.member (.mk (.ident "window" 0) (.ident "fetch") lo hi)) []]
        = [⟨(lo, hi), CODE, MESSAGE, HINT⟩]) := by
  refine ⟨?_, ?_, ?_⟩
  · intro pim prop lo hi c ctx hg
    cases pim <;>
      simp [member_expr, MemberExpr.obj, hg]
  · intro lo hi hg
    simp [lint_program, traverseList, traverseExpr, traverseMember, traverseProp,
      member_expr, MemberExpr.obj, hg]
  · intro lo hi hg0 hg1
    have hf : "fetch" ∈ PROPERTY_DENY_LIST := by decide
    simp [lint_program, traverseList, traverseExpr, traverseMember, traverseProp,
      member_expr, extract_symbol, MemberExpr.obj, MemberExpr.prop,
      MemberExpr.lo, MemberExpr.hi, hg0, is_denied, hf,
      Context.add_diagnostic_with_hint]

/-- Witness for C2 with the scope query that declares only binding key 0
global, on the nested-shadow program. -/
theorem shadowed_window_skipped_witness :
    lint_program (fun i : Id => decide (i = ("window", 0)))
      [.lit .otherLit, .ident "window" 1,
       .call (.member (.mk (.ident "window" 0) (.ident "fetch") 53 65)) []]
      = [⟨(53, 65), CODE, MESSAGE, HINT⟩] :=
  (shadowed_window_skipped (fun i : Id => decide (i = ("window", 0)))).2.2
    53 65 (by decide) (by decide)

/-- C3: the chained accesses in `foo.window.fetch();` and `window.fetch.bind`
produce no diagnostic at all, for every scope query: the inner link is
skipped because its parent is a member expression, and the outermost link
does not match because its object is itself a member expression, not the bare
identifier `window`; in particular there are no duplicate or nested reports. -/
theorem chained_member_no_diagnostic (g : Id → Bool)
    (lo1 hi1 lo2 hi2 : Nat) :
    lint_program g
      [.call (.member (.mk
        (.member (.mk (.ident "foo" 0) (.ident "window") lo1 hi1))
        (.ident "fetch") lo2 hi2)) []]
      = []
    ∧ lint_program g
      [.member (.mk
        (.member (.mk (.ident "window" 0) (.ident "fetch") lo1 hi1))
        (.ident "bind") lo2 hi2)]
      = [] := by
  constructor <;>
    simp [lint_program, traverseList, traverseExpr, traverseMember, traverseProp,
      member_expr, MemberExpr.obj]

/-- C4: the callback returns with the context unchanged for every member
expression whose parent is itself a member expression, regardless of the
node's object, property, or the scope query. -/
theorem parent_member_always_skipped (g : Id → Bool) (m : MemberExpr)
    (ctx : Context) :
    member_expr g true m ctx = ctx := by
  simp [member_expr]

end NoWindowPrefixRule

namespace NoWindowPrefixRule

/-- C5: the symbol extractor returns the identifier's text for a plain
property, the private name's text for a private-name property, the string
literal's value for a computed string-literal property, and the single
segment's raw text for a computed template literal with zero interpolations
and exactly one segment; every other computed property is undetermined. -/
theorem extract_symbol_cases :
    (∀ (o : Expr) (lo hi : Nat) (s : String),
      extract_symbol (.mk o (.ident s) lo hi) = some s)
    ∧ (∀ (o : Expr) (lo hi : Nat) (s : String),
      extract_symbol (.mk o (.privateName s) lo hi) = some s)
    ∧ (∀ (o : Expr) (lo hi : Nat) (s : String),
      extract_symbol (.mk o (.computed (.lit (.str s))) lo hi) = some s)
    ∧ (∀ (o : Expr) (lo hi : Nat) (s : String),
      extract_symbol (.mk o (.computed (.tpl [] [s])) lo hi) = some s)
    ∧ (∀ (o : Expr) (lo hi : Nat) (e : Expr),
      (∀ s, e ≠ .lit (.str s)) →
      (∀ es qs, e = .tpl es qs → ¬(es = [] ∧ qs.length = 1)) →
      extract_symbol (.mk o (.computed e) lo hi) = none) := by
  refine ⟨?_, ?_, ?_, ?_, ?_⟩
  · intro o lo hi s; simp [extract_symbol, MemberExpr.prop]
  · intro o lo hi s; simp [extract_symbol, MemberExpr.prop]
  · intro o lo hi s; simp [extract_symbol, MemberExpr.prop]
  · intro o lo hi s; simp [extract_symbol, MemberExpr.prop]
  · intro o lo hi e hstr htpl
    match e with
    | .ident _ _ => simp [extract_symbol, MemberExpr.prop]
    | .lit (.str s) => exact absurd rfl (hstr s)
    | .lit .otherLit => simp [extract_symbol, MemberExpr.prop]
    | .tpl es qs =>
      have h := htpl es qs rfl
      simp only [extract_symbol, MemberExpr.prop]
      rw [if_neg]
      intro hc
      rw [Bool.and_eq_true, List.isEmpty_iff, beq_iff_eq] at hc
      exact h hc
    | .member _ => simp [extract_symbol, MemberExpr.prop]
    | .call _ _ => simp [extract_symbol, MemberExpr.prop]
    | .otherExpr => simp [extract_symbol, MemberExpr.prop]

/-- Witness for C5 at the computed identifier property, an undetermined
case. -/
theorem extract_symbol_cases_witness :
    extract_symbol (.mk .otherExpr (.computed (.ident "f" 0)) 0 9) = none :=
  extract_symbol_cases.2.2.2.2 .otherExpr 0 9 (.ident "f" 0)
    (fun _ h => Expr.noConfusion h) (fun _ _ h => Expr.noConfusion h)

/-- C6: a computed member access on global `window` through a variable or
through a template literal with an interpolation produces no diagnostic, for
every scope query: the property name is not statically determined. -/
theorem computed_nonstatic_no_diagnostic (g : Id → Bool) (f : String)
    (c lo hi : Nat) :
    lint_program g
      [.call (.member (.mk (.ident "window" 0) (.computed (.ident f c)) lo hi)) []]
      = []
    ∧ lint_program g
      [.call (.member (.mk (.ident "window" 0)
        (.computed (.tpl [.ident f c] ["", ""])) lo hi)) []]
      = [] := by
  constructor <;>
    simp [lint_program, traverseList, traverseExpr, traverseMember, traverseProp,
      member_expr, extract_symbol, MemberExpr.obj, MemberExpr.prop]

/-- C7: membership in the deny-list is an exact, case-sensitive string test
with no normalization; "fetch", "setTimeout" and "Deno" are denied, while
"onload", "closed", "alert" and the case variant "Fetch" are not, and the
accesses `window.onload()`, `window.closed` and `window.alert()` produce no
diagnostic for every scope query. -/
theorem deny_list_exact_string :
    (∀ name, is_denied name = true ↔ name ∈ PROPERTY_DENY_LIST)
    ∧ is_denied "fetch" = true
    ∧ is_denied "setTimeout" = true
    ∧ is_denied "Deno" = true
    ∧ is_denied "onload" = false
    ∧ is_denied "closed" = false
    ∧ is_denied "alert" = false
    ∧ is_denied "Fetch" = false
    ∧ (∀ (g : Id → Bool) (lo hi : Nat),
      lint_program g
        [.call (.member (.mk (.ident "window" 0) (.ident "onload") lo hi)) []] = []
      ∧ lint_program g
        [.member (.mk (.ident "window" 0) (.ident "closed") lo hi)] = []
      ∧ lint_program g
        [.call (.member (.mk (.ident "window" 0) (.ident "alert") lo hi)) []] = []) := by
  have ho : "onload" ∉ PROPERTY_DENY_LIST := by decide
  have hc : "closed" ∉ PROPERTY_DENY_LIST := by decide
  have ha : "alert" ∉ PROPERTY_DENY_LIST := by decide
  refine ⟨fun name => List.elem_iff, by decide, by decide, by decide, by decide,
    by decide, by decide, by decide, fun g lo hi => ⟨?_, ?_, ?_⟩⟩
  all_goals
    simp [lint_program, traverseList, traverseExpr, traverseMember, traverseProp,
      member_expr, extract_symbol, MemberExpr.obj, MemberExpr.prop,
      is_denied, ho, hc, ha]

end NoWindowPrefixRule

namespace NoWindowPrefixRule

/-- C8: no diagnostic is emitted when the object of the member access is not
the bare identifier `window`: for any denied name `p`, the accesses `self.p`
and `globalThis.p` and the bare call `p()` produce no diagnostic, and in
general the callback leaves the context unchanged whenever the object is not
an identifier with text "window". -/
theorem non_window_object_no_diagnostic (p : String)
    (hp : p ∈ PROPERTY_DENY_LIST) (g : Id → Bool) (c lo hi : Nat) :
    lint_program g [.member (.mk (.ident "self" c) (.ident p) lo hi)] = []
    ∧ lint_program g [.member (.mk (.ident "globalThis" c) (.ident p) lo hi)] = []
    ∧ lint_program g [.call (.ident p c) []] = []
    ∧ (∀ (pim : Bool) (m : MemberExpr) (ctx : Context),
      (∀ k, m.obj ≠ .ident "window" k) → member_expr g pim m ctx = ctx) := by
  refine ⟨?_, ?_, ?_, ?_⟩
  · simp [lint_program, traverseList, traverseExpr, traverseMember, traverseProp,
      member_expr, MemberExpr.obj]
  · simp [lint_program, traverseList, traverseExpr, traverseMember, traverseProp,
      member_expr, MemberExpr.obj]
  · simp [lint_program, traverseList, traverseExpr, traverseMember, traverseProp,
      member_expr, MemberExpr.obj]
  · intro pim m ctx hobj
    cases pim
    · match hm : m.obj with
      | .ident sym k =>
        have hs : sym ≠ "window" := fun h => hobj k (h ▸ hm)
        simp [member_expr, hm, hs]
      | .lit _ => simp [member_expr, hm]
      | .tpl _ _ => simp [member_expr, hm]
      | .member _ => simp [member_expr, hm]
      | .call _ _ => simp [member_expr, hm]
      | .otherExpr => simp [member_expr, hm]
    · simp [member_expr]

/-- Witness for C8 at the concrete name "fetch" on `self.fetch`. -/
theorem non_window_object_no_diagnostic_witness :
    "fetch" ∈ PROPERTY_DENY_LIST ∧
    lint_program (fun _ => true)
      [.member (.mk (.ident "self" 0) (.ident "fetch") 0 10)] = [] :=
  ⟨by decide,
    (non_window_object_no_diagnostic "fetch" (by decide) (fun _ => true) 0 0 10).1⟩

/-- C9: whenever any check of the match pipeline fails (chained node,
non-window object, shadowed binding, undetermined property, or a name outside
the deny-list), the callback returns the analysis context unchanged; the
function is total, so a failing check is an ordinary non-match outcome, never
an error. -/
theorem failing_check_leaves_context_unchanged (g : Id → Bool) (pim : Bool)
    (m : MemberExpr) (ctx : Context)
    (h : pim = true
      ∨ (∀ k, m.obj ≠ .ident "window" k)
      ∨ (∀ k, m.obj = .ident "window" k → g ("window", k) = false)
      ∨ extract_symbol m = none
      ∨ (∀ s, extract_symbol m = some s → is_denied s = false)) :
    member_expr g pim m ctx = ctx := by
  rcases h with h | h | h | h | h
  · simp [member_expr, h]
  · cases pim
    · match hm : m.obj with
      | .ident sym k =>
        have hs : sym ≠ "window" := fun hh => h k (hh ▸ hm)
        simp [member_expr, hm, hs]
      | .lit _ => simp [member_expr, hm]
      | .tpl _ _ => simp [member_expr, hm]
      | .member _ => simp [member_expr, hm]
      | .call _ _ => simp [member_expr, hm]
      | .otherExpr => simp [member_expr, hm]
    · simp [member_expr]
  · cases pim
    · match hm : m.obj with
      | .ident sym k =>
        by_cases hs : sym = "window"
        · subst hs
          have hg := h k hm
          simp [member_expr, hm, hg]
        · simp [member_expr, hm, hs]
      | .lit _ => simp [member_expr, hm]
      | .tpl _ _ => simp [member_expr, hm]
      | .member _ => simp [member_expr, hm]
      | .call _ _ => simp [member_expr, hm]
      | .otherExpr => simp [member_expr, hm]
    · simp [member_expr]
  · cases pim
    · match hm : m.obj with
      | .ident sym k => simp [member_expr, hm, h]
      | .lit _ => simp [member_expr, hm]
      | .tpl _ _ => simp [member_expr, hm]
      | .member _ => simp [member_expr, hm]
      | .call _ _ => simp [member_expr, hm]
      | .otherExpr => simp [member_expr, hm]
    · simp [member_expr]
  · cases pim
    · match hm : m.obj with
      | .ident sym k =>
        match he : extract_symbol m with
        | none => simp [member_expr, hm, he]
        | some s => simp [member_expr, hm, he, h s he]
      | .lit _ => simp [member_expr, hm]
      | .tpl _ _ => simp [member_expr, hm]
      | .member _ => simp [member_expr, hm]
      | .call _ _ => simp [member_expr, hm]
      | .otherExpr => simp [member_expr, hm]
    · simp [member_expr]

/-- Witness for C9: a chained node (parent is a member expression) leaves the
empty context unchanged. -/
theorem failing_check_leaves_context_unchanged_witness :
    member_expr (fun _ => true) true
      (.mk (.ident "window" 0) (.ident "fetch") 0 12) ⟨[]⟩ = ⟨[]⟩ :=
  failing_check_leaves_context_unchanged (fun _ => true) true
    (.mk (.ident "window" 0) (.ident "fetch") 0 12) ⟨[]⟩ (Or.inl rfl)

/-- C10: in `window.fetch().then(x)` the inner `window.fetch` node's parent is
the call expression, not a member expression, so it is evaluated and emits
exactly one diagnostic anchored at its own range, while the outer access to
`then` is skipped because its object is a call expression, not a bare
identifier. -/
theorem call_breaks_chain_skip (g : Id → Bool) (hg : g ("window", 0) = true)
    (lo1 hi1 lo2 hi2 c : Nat) (x : String) :
    lint_program g
      [.call (.member (.mk
        (.call (.member (.mk (.ident "window" 0) (.ident "fetch") lo1 hi1)) [])
        (.ident "then") lo2 hi2)) [.ident x c]]
      = [⟨(lo1, hi1), CODE, MESSAGE, HINT⟩] := by
  have hf : "fetch" ∈ PROPERTY_DENY_LIST := by decide
  simp [lint_program, traverseList, traverseExpr, traverseMember, traverseProp,
    member_expr, extract_symbol, MemberExpr.obj, MemberExpr.prop,
    MemberExpr.lo, MemberExpr.hi, hg, is_denied, hf,
    Context.add_diagnostic_with_hint]

/-- Witness for C10 with the always-global scope query at concrete ranges. -/
theorem call_breaks_chain_skip_witness :
    lint_program (fun _ => true)
      [.call (.member (.mk
        (.call (.member (.mk (.ident "window" 0) (.ident "fetch") 0 12)) [])
        (.ident "then") 0 22)) [.ident "x" 1]]
      = [⟨(0, 12), CODE, MESSAGE, HINT⟩] :=
  call_breaks_chain_skip (fun _ => true) rfl 0 12 0 22 1 "x"

end NoWindowPrefixRule
